import Mathlib

/-!
Shallow embedding of the video encoding pipeline in `src/encode.rs` of the
`video-rs` repository.  The `Encoder` struct and its operations
(`encode_raw`, `finish`, `flush`, `write`, `scale`,
`encoder_receive_packet`) are translated directly from the Rust source.
External collaborators (the ffmpeg codec, the software scaler and the
container muxer) are modelled at their interface by an oracle environment
`Env`: each call the pipeline makes to a collaborator is answered by the
oracle, indexed by a call counter carried in the state.  The observable
output of the muxer (header, packet and trailer writes) is recorded in a
trace.
-/

namespace VideoRs

/-- Time base as a rational number: numerator and denominator
(`AvRational` at the interface). -/
structure Rat2 where
  num : Int
  den : Int
deriving DecidableEq, Repr

/-- Pixel formats that matter to the pipeline: the two accepted source
formats `RGB24` and `BGRA` (checked in `encode_raw`), the common codec
target `YUV420P`, and an opaque code for anything else. -/
inductive Pixel
  | RGB24
  | BGRA
  | YUV420P
  | other (code : Nat)
deriving DecidableEq, Repr

/-- Raw video frame at the pipeline boundary: dimensions, pixel format,
presentation timestamp, and whether the frame has been marked as a forced
key (intra) frame (`set_kind(AvFrameType::I)` in the source). -/
structure RawFrame where
  width : Nat
  height : Nat
  format : Pixel
  pts : Int
  kind_I : Bool
deriving DecidableEq, Repr

/-- Encoded packet: timestamps (in some time base), stream index and
position marker, as manipulated by `Encoder::write`. -/
structure Packet where
  pts : Int
  dts : Int
  stream : Nat
  position : Int
deriving DecidableEq, Repr

/-- Result of one `receive_packet` call on the codec, as discriminated by
`Encoder::encoder_receive_packet`: a packet, the transient EAGAIN state, or
a hard error (any other `AvError`, end-of-stream included). -/
inductive RecvResult
  | packet (p : Packet)
  | again
  | err (code : Nat)
deriving DecidableEq, Repr

/-- Error type of the pipeline operations, mirroring the crate's `Error`
variants used in `encode.rs`: `InvalidFrameFormat` and wrapped backend
errors (carrying an opaque code). -/
inductive Err
  | InvalidFrameFormat
  | BackendError (code : Nat)
deriving DecidableEq, Repr

/-- Observable event at the muxer interface.  A packet event records the
packet as received from the codec, the packet as actually handed to the
muxer (after tagging and rescaling), and whether the interleaved write
operation was used. -/
inductive MuxEvent
  | header
  | packet (orig written : Packet) (interleaved : Bool)
  | trailer
deriving DecidableEq, Repr

/-- Oracle environment for the external collaborators.  Each collaborator
call made by the pipeline is answered here; fallible calls are indexed by
the corresponding call counter in the `Encoder` state. -/
structure Env where
  recv : Nat → RecvResult
  sendFrameErr : Nat → Option Nat
  sendEofErr : Option Nat
  scaleErr : RawFrame → Option Nat
  headerErr : Nat → Option Nat
  writeErr : Nat → Option Nat
  trailerErr : Option Nat
  streamTimeBase : Rat2
  rescale : Int → Rat2 → Rat2 → Int

/-- State of the `Encoder` struct from `encode.rs`, extended with the call
counters that index the oracle and with the observable logs: `sent`
records every frame passed to the codec's `send_frame` together with the
value of `frame_count` at that moment, `trace` records the muxer events,
and `validSubmits` counts the `encode_raw` calls that passed frame-format
validation. -/
structure Encoder where
  writer_stream_index : Nat
  encoder_time_base : Rat2
  interleaved : Bool
  pixel_format : Pixel
  scaler_width : Nat
  scaler_height : Nat
  frame_count : Nat
  have_written_header : Bool
  have_written_trailer : Bool
  headerTries : Nat
  sendCalls : Nat
  recvCalls : Nat
  writeCalls : Nat
  validSubmits : Nat
  sent : List (Nat × RawFrame)
  trace : List MuxEvent
deriving DecidableEq, Repr

/-- Key frame interval constant (`Encoder::KEY_FRAME_INTERVAL = 12`). -/
def Encoder.KEY_FRAME_INTERVAL : Nat := 12

/-- Drain budget of the flush loop (`MAX_DRAIN_ITERATIONS = 100` in
`Encoder::flush`). -/
def MAX_DRAIN_ITERATIONS : Nat := 100

/-- State returned by `Encoder::from_writer`: counters at zero, both
lifecycle flags false, empty logs.  The configuration fields (stream
index, time base, pixel format, scaler dimensions, interleaved flag) are
parameters fixed at construction. -/
def Encoder.init (idx : Nat) (etb : Rat2) (pf : Pixel) (w h : Nat)
    (ilv : Bool) : Encoder :=
  { writer_stream_index := idx
    encoder_time_base := etb
    interleaved := ilv
    pixel_format := pf
    scaler_width := w
    scaler_height := h
    frame_count := 0
    have_written_header := false
    have_written_trailer := false
    headerTries := 0
    sendCalls := 0
    recvCalls := 0
    writeCalls := 0
    validSubmits := 0
    sent := []
    trace := [] }

/-- Frame-format validation performed at the top of `Encoder::encode_raw`:
the frame's dimensions must equal the configured scaler dimensions and its
pixel format must be `RGB24` or `BGRA`. -/
def frameFormatOk (s : Encoder) (f : RawFrame) : Bool :=
  f.width == s.scaler_width && f.height == s.scaler_height &&
    (f.format == Pixel.RGB24 || f.format == Pixel.BGRA)

/-- Translation of `Encoder::scale`: run the scaler on the frame (the
scaler writes the data planes of a freshly allocated frame, whose picture
type stays unset), then copy the PTS over from the old frame
(`frame_scaled.set_pts(frame.pts())`).  A backend failure of the scaler is
wrapped in `BackendError`. -/
def scale (env : Env) (s : Encoder) (frame : RawFrame) :
    Except Err RawFrame :=
  match env.scaleErr frame with
  | some e => .error (.BackendError e)
  | none =>
      .ok { width := s.scaler_width
            height := s.scaler_height
            format := s.pixel_format
            pts := frame.pts
            kind_I := false }

/-- Translation of `Encoder::encoder_receive_packet`: one
`receive_packet` call on the codec; `Ok` yields the packet, the EAGAIN
errno yields `none`, any other error is propagated. -/
def encoder_receive_packet (env : Env) (s : Encoder) :
    Encoder × Except Err (Option Packet) :=
  let s' := { s with recvCalls := s.recvCalls + 1 }
  match env.recv s.recvCalls with
  | .packet p => (s', .ok (some p))
  | .again => (s', .ok none)
  | .err e => (s', .error (.BackendError e))

/-- Translation of `Encoder::write`: tag the packet with the stream index,
invalidate its position, rescale its timestamps from the encoder time base
to the output stream's time base, hand it to the muxer (interleaved or
direct per the flag), and increment `frame_count` on success. -/
def write (env : Env) (s : Encoder) (packet : Packet) :
    Encoder × Except Err Unit :=
  let p : Packet :=
    { pts := env.rescale packet.pts s.encoder_time_base env.streamTimeBase
      dts := env.rescale packet.dts s.encoder_time_base env.streamTimeBase
      stream := s.writer_stream_index
      position := -1 }
  match env.writeErr s.writeCalls with
  | some e => ({ s with writeCalls := s.writeCalls + 1 },
               .error (.BackendError e))
  | none =>
      ({ s with
          writeCalls := s.writeCalls + 1
          trace := s.trace ++ [MuxEvent.packet packet p s.interleaved]
          frame_count := s.frame_count + 1 }, .ok ())

/-- Header block of `Encoder::encode_raw`: write the file header if that
has not been done yet; the flag is set only on success. -/
def writeHeaderIfNeeded (env : Env) (s : Encoder) :
    Encoder × Except Err Unit :=
  if s.have_written_header then (s, .ok ())
  else
    match env.headerErr s.headerTries with
    | some e => ({ s with headerTries := s.headerTries + 1 },
                 .error (.BackendError e))
    | none =>
        ({ s with
            headerTries := s.headerTries + 1
            have_written_header := true
            trace := s.trace ++ [MuxEvent.header] }, .ok ())

/-- One `send_frame` call on the codec; the submitted frame is recorded in
the `sent` log together with the current `frame_count`. -/
def sendFrame (env : Env) (s : Encoder) (fr : RawFrame) :
    Encoder × Except Err Unit :=
  let s' := { s with
                sendCalls := s.sendCalls + 1
                sent := s.sent ++ [(s.frame_count, fr)] }
  match env.sendFrameErr s.sendCalls with
  | some e => (s', .error (.BackendError e))
  | none => (s', .ok ())

/-- Key-frame marking step of `Encoder::encode_raw`: mark the (scaled)
frame as a forced key (intra) frame when the current `frame_count` is a
multiple of `KEY_FRAME_INTERVAL`. -/
def markKey (c : Nat) (fr : RawFrame) : RawFrame :=
  if c % Encoder.KEY_FRAME_INTERVAL == 0 then { fr with kind_I := true }
  else fr

/-- Translation of `Encoder::encode_raw`: validate the frame format, write
the header lazily, scale the frame, mark it as a forced key frame when
`frame_count % KEY_FRAME_INTERVAL == 0`, send it to the codec, drain at
most one packet and write it if present. -/
def encode_raw (env : Env) (s : Encoder) (frame : RawFrame) :
    Encoder × Except Err Unit :=
  if frameFormatOk s frame then
    match writeHeaderIfNeeded env
        { s with validSubmits := s.validSubmits + 1 } with
    | (s1, .error e) => (s1, .error e)
    | (s1, .ok _) =>
      match scale env s1 frame with
      | .error e => (s1, .error e)
      | .ok fr0 =>
        match sendFrame env s1 (markKey s1.frame_count fr0) with
        | (s2, .error e) => (s2, .error e)
        | (s2, .ok _) =>
          match encoder_receive_packet env s2 with
          | (s3, .error e) => (s3, .error e)
          | (s3, .ok none) => (s3, .ok ())
          | (s3, .ok (some p)) => write env s3 p
  else (s, .error Err.InvalidFrameFormat)

/-- Drain loop of `Encoder::flush`, with explicit fuel (the Rust source
iterates `for _ in 0..MAX_DRAIN_ITERATIONS`): each iteration makes one
`encoder_receive_packet` call; a packet is written (write errors
propagate), EAGAIN continues, and a hard drain error breaks out of the
loop, after which `flush` returns `Ok`. -/
def drainLoop (env : Env) : Nat → Encoder → Encoder × Except Err Unit
  | 0, s => (s, .ok ())
  | Nat.succ n, s =>
    match encoder_receive_packet env s with
    | (s', .ok (some p)) =>
      match write env s' p with
      | (s'', .ok _) => drainLoop env n s''
      | (s'', .error e) => (s'', .error e)
    | (s', .ok none) => drainLoop env n s'
    | (s', .error _) => (s', .ok ())

/-- Translation of `Encoder::flush`: signal end-of-stream to the codec
(`send_eof`, whose error propagates), then run the bounded drain loop. -/
def flush (env : Env) (s : Encoder) : Encoder × Except Err Unit :=
  match env.sendEofErr with
  | some e => (s, .error (.BackendError e))
  | none => drainLoop env MAX_DRAIN_ITERATIONS s

/-- Translation of `Encoder::finish`: if the header has been written and
the trailer has not, set `have_written_trailer` (before flushing), flush,
and write the trailer; otherwise do nothing. -/
def finish (env : Env) (s : Encoder) : Encoder × Except Err Unit :=
  if s.have_written_header && !s.have_written_trailer then
    let s1 := { s with have_written_trailer := true }
    match flush env s1 with
    | (s2, .error e) => (s2, .error e)
    | (s2, .ok _) =>
      match env.trailerErr with
      | some e => (s2, .error (.BackendError e))
      | none => ({ s2 with trace := s2.trace ++ [MuxEvent.trailer] }, .ok ())
  else (s, .ok ())

/-- Translation of `impl Drop for Encoder`: call `finish` and discard its
result (`let _ = self.finish()`). -/
def dropEncoder (env : Env) (s : Encoder) : Encoder :=
  (finish env s).1

/-- Command issued by a client of the pipeline: an `encode_raw` call with
a given frame, or a `finish` call. -/
inductive Cmd
  | encode (f : RawFrame)
  | finishCmd
deriving DecidableEq, Repr

/-- One client call on the pipeline (the returned `Result` is dropped, as
a caller is free to keep using the encoder after an error). -/
def step (env : Env) (s : Encoder) : Cmd → Encoder
  | .encode f => (encode_raw env s f).1
  | .finishCmd => (finish env s).1

/-- Run a sequence of client calls from a given state. -/
def run (env : Env) (s : Encoder) (cmds : List Cmd) : Encoder :=
  cmds.foldl (step env) s

/-- Discriminator for header events. -/
def MuxEvent.isHeader : MuxEvent → Bool
  | .header => true
  | _ => false

/-- Discriminator for packet events. -/
def MuxEvent.isPacket : MuxEvent → Bool
  | .packet _ _ _ => true
  | _ => false

/-- Discriminator for trailer events. -/
def MuxEvent.isTrailer : MuxEvent → Bool
  | .trailer => true
  | _ => false

/-- Number of header writes in a trace. -/
def headerCount (t : List MuxEvent) : Nat :=
  (t.filter MuxEvent.isHeader).length

/-- Number of packet writes in a trace. -/
def packetCount (t : List MuxEvent) : Nat :=
  (t.filter MuxEvent.isPacket).length

/-- Number of trailer writes in a trace. -/
def trailerCount (t : List MuxEvent) : Nat :=
  (t.filter MuxEvent.isTrailer).length

/-- A nonempty trace must start with the header write. -/
def headerLeads (t : List MuxEvent) : Bool :=
  t.isEmpty || t.head? == some MuxEvent.header

/-- No packet write occurs after a trailer write in the trace. -/
def noPacketAfterTrailer : List MuxEvent → Bool
  | [] => true
  | MuxEvent.trailer :: rest => rest.all (fun e => !e.isPacket)
  | _ :: rest => noPacketAfterTrailer rest

/-- Discipline every packet handed to the muxer must satisfy, relative to
the construction-time configuration `s0`: tagged with the stream index,
position invalidated, both timestamps rescaled from the encoder time base
to the output stream's time base, and interleaved mode per the flag. -/
def packetOk (env : Env) (s0 : Encoder) : MuxEvent → Bool
  | .packet o p ilv =>
      p.stream == s0.writer_stream_index && p.position == -1 &&
      p.pts == env.rescale o.pts s0.encoder_time_base env.streamTimeBase &&
      p.dts == env.rescale o.dts s0.encoder_time_base env.streamTimeBase &&
      ilv == s0.interleaved
  | _ => true

/-- Every frame in the `sent` log is marked as a forced key frame exactly
when the `frame_count` at its submission was a multiple of the key frame
interval. -/
def cadenceOk (s : Encoder) : Bool :=
  s.sent.all (fun cf =>
    cf.2.kind_I == (cf.1 % Encoder.KEY_FRAME_INTERVAL == 0))

/-- Discriminator for encode commands. -/
def Cmd.isEncode : Cmd → Bool
  | .encode _ => true
  | _ => false

/-- A command sequence in which no `encode_raw` call occurs after a
`finish` call. -/
def noEncAfterFin : List Cmd → Bool
  | [] => true
  | Cmd.finishCmd :: rest => rest.all (fun c => !c.isEncode)
  | Cmd.encode _ :: rest => noEncAfterFin rest

/-- Sample packet emitted by the concrete codec oracles below. -/
def samplePacket : Packet :=
  { pts := 5, dts := 4, stream := 9, position := 9 }

/-- Concrete benign oracle: every collaborator call succeeds; the codec
answers the first drain with EAGAIN, the second with a packet, and
reports a hard end-of-stream error afterwards. -/
def envScenario : Env :=
  { recv := fun n =>
      if n == 0 then .again
      else if n == 1 then .packet samplePacket
      else .err 1
    sendFrameErr := fun _ => none
    sendEofErr := none
    scaleErr := fun _ => none
    headerErr := fun _ => none
    writeErr := fun _ => none
    trailerErr := none
    streamTimeBase := { num := 1, den := 1000 }
    rescale := fun v _ _ => v * 2 }

/-- Concrete oracle whose codec reports EAGAIN on every drain call. -/
def envAgain : Env :=
  { envScenario with recv := fun _ => .again }

/-- Concrete oracle whose codec has a packet ready on every drain call
except the third, which reports a hard error. -/
def envPackets : Env :=
  { envScenario with
      recv := fun n => if n == 2 then .err 1 else .packet samplePacket }

/-- Concrete oracle whose codec reports a hard error on every drain. -/
def envRecvErr : Env :=
  { envScenario with recv := fun _ => .err 9 }

/-- Concrete oracle whose codec fails the end-of-stream signal. -/
def envEofFail : Env :=
  { envScenario with sendEofErr := some 7 }

/-- Concrete oracle whose scaler fails on every frame. -/
def envScaleFail : Env :=
  { envScenario with scaleErr := fun _ => some 3 }

/-- Concrete oracle whose muxer fails every packet write. -/
def envWriteFail : Env :=
  { envScenario with writeErr := fun _ => some 4 }

/-- Well-formed 800 by 600 BGRA frame with PTS 0. -/
def frame800 : RawFrame :=
  { width := 800, height := 600, format := .BGRA, pts := 0, kind_I := false }

/-- Mismatched 640 by 480 frame for a pipeline configured at 800 by 600. -/
def frame640 : RawFrame :=
  { width := 640, height := 480, format := .BGRA, pts := 0, kind_I := false }

/-- Freshly constructed pipeline configured for 800 by 600 frames. -/
def enc800 : Encoder :=
  Encoder.init 0 { num := 1, den := 90000 } Pixel.YUV420P 800 600 false

/-- Pipeline state of `enc800` after its header has been written. -/
def encStarted : Encoder :=
  { enc800 with have_written_header := true, trace := [MuxEvent.header] }

/-- Invariant relating a reachable pipeline state `s` to the
construction-time state `s0`: the configuration fields are unchanged, the
header count in the trace matches the `have_written_header` flag, the
header leads the trace, at most one trailer has been written and only
with the flag set, the trailer flag implies the header flag, the header
flag implies at least one validated submission, `frame_count` equals the
number of packets written, the key-frame cadence holds on the `sent` log,
and every muxed packet satisfies the write discipline. -/
structure Inv (env : Env) (s0 s : Encoder) : Prop where
  idx_eq : s.writer_stream_index = s0.writer_stream_index
  tb_eq : s.encoder_time_base = s0.encoder_time_base
  ilv_eq : s.interleaved = s0.interleaved
  hdr_count : headerCount s.trace = (if s.have_written_header then 1 else 0)
  hdr_leads : headerLeads s.trace = true
  trl_count : trailerCount s.trace ≤ (if s.have_written_trailer then 1 else 0)
  trl_imp_hdr : s.have_written_trailer = true → s.have_written_header = true
  hdr_imp_submit : s.have_written_header = true → 1 ≤ s.validSubmits
  fc_eq : s.frame_count = packetCount s.trace
  cadence : cadenceOk s = true
  packets : s.trace.all (packetOk env s0) = true

section TraceLemmas

theorem headerCount_append (t u : List MuxEvent) :
    headerCount (t ++ u) = headerCount t + headerCount u := by
  simp [headerCount, List.filter_append]

theorem packetCount_append (t u : List MuxEvent) :
    packetCount (t ++ u) = packetCount t + packetCount u := by
  simp [packetCount, List.filter_append]

theorem trailerCount_append (t u : List MuxEvent) :
    trailerCount (t ++ u) = trailerCount t + trailerCount u := by
  simp [trailerCount, List.filter_append]

theorem headerCount_cons (a : MuxEvent) (t : List MuxEvent) :
    headerCount (a :: t) = (if a.isHeader then 1 else 0) + headerCount t := by
  simp [headerCount, List.filter_cons]
  split <;> simp [Nat.add_comm]

theorem packetCount_cons (a : MuxEvent) (t : List MuxEvent) :
    packetCount (a :: t) = (if a.isPacket then 1 else 0) + packetCount t := by
  simp [packetCount, List.filter_cons]
  split <;> simp [Nat.add_comm]

theorem trailerCount_cons (a : MuxEvent) (t : List MuxEvent) :
    trailerCount (a :: t) = (if a.isTrailer then 1 else 0) + trailerCount t := by
  simp [trailerCount, List.filter_cons]
  split <;> simp [Nat.add_comm]

theorem headerLeads_append {t : List MuxEvent} (u : List MuxEvent)
    (h : t ≠ []) : headerLeads (t ++ u) = headerLeads t := by
  cases t with
  | nil => exact absurd rfl h
  | cons a t' => simp [headerLeads]

theorem trace_nil_of_no_header {t : List MuxEvent}
    (hl : headerLeads t = true) (h0 : headerCount t = 0) : t = [] := by
  cases t with
  | nil => rfl
  | cons a t' =>
      simp [headerLeads] at hl
      subst hl
      simp [headerCount, List.filter, MuxEvent.isHeader] at h0

theorem ne_nil_of_headerCount_pos {t : List MuxEvent}
    (h : 1 ≤ headerCount t) : t ≠ [] := by
  intro hn
  subst hn
  simp [headerCount] at h

theorem noPacketAfterTrailer_of_no_trailer {t : List MuxEvent}
    (h : trailerCount t = 0) : noPacketAfterTrailer t = true := by
  induction t with
  | nil => rfl
  | cons a t' ih =>
      cases a with
      | header =>
          rw [trailerCount_cons] at h
          simp [MuxEvent.isTrailer] at h
          exact ih h
      | packet o p i =>
          rw [trailerCount_cons] at h
          simp [MuxEvent.isTrailer] at h
          exact ih h
      | trailer =>
          rw [trailerCount_cons] at h
          simp [MuxEvent.isTrailer] at h

theorem noPacketAfterTrailer_append_trailer {t : List MuxEvent}
    (h : trailerCount t = 0) :
    noPacketAfterTrailer (t ++ [MuxEvent.trailer]) = true := by
  induction t with
  | nil => rfl
  | cons a t' ih =>
      cases a with
      | header =>
          rw [trailerCount_cons] at h
          simp [MuxEvent.isTrailer] at h
          exact ih h
      | packet o p i =>
          rw [trailerCount_cons] at h
          simp [MuxEvent.isTrailer] at h
          exact ih h
      | trailer =>
          rw [trailerCount_cons] at h
          simp [MuxEvent.isTrailer] at h

end TraceLemmas

section OpLemmas

variable {env : Env} {s0 : Encoder}

theorem scale_eq_ok {s : Encoder} {frame : RawFrame}
    (h : env.scaleErr frame = none) :
    scale env s frame =
      Except.ok { width := s.scaler_width, height := s.scaler_height,
                  format := s.pixel_format, pts := frame.pts,
                  kind_I := false } := by
  simp [scale, h]

theorem scale_eq_err {s : Encoder} {frame : RawFrame} {e : Nat}
    (h : env.scaleErr frame = some e) :
    scale env s frame = Except.error (Err.BackendError e) := by
  simp [scale, h]

theorem scale_ok {s : Encoder} {frame fr : RawFrame}
    (h : scale env s frame = Except.ok fr) :
    fr.kind_I = false ∧ fr.pts = frame.pts := by
  cases hE : env.scaleErr frame with
  | none =>
      rw [scale_eq_ok hE] at h
      simp only [Except.ok.injEq] at h
      subst h
      exact ⟨rfl, rfl⟩
  | some e =>
      rw [scale_eq_err hE] at h
      cases h

theorem receive_eq_packet {s : Encoder} {p : Packet}
    (h : env.recv s.recvCalls = RecvResult.packet p) :
    encoder_receive_packet env s =
      ({ s with recvCalls := s.recvCalls + 1 }, Except.ok (some p)) := by
  simp [encoder_receive_packet, h]

theorem receive_eq_again {s : Encoder}
    (h : env.recv s.recvCalls = RecvResult.again) :
    encoder_receive_packet env s =
      ({ s with recvCalls := s.recvCalls + 1 }, Except.ok none) := by
  simp [encoder_receive_packet, h]

theorem receive_eq_err {s : Encoder} {e : Nat}
    (h : env.recv s.recvCalls = RecvResult.err e) :
    encoder_receive_packet env s =
      ({ s with recvCalls := s.recvCalls + 1 },
        Except.error (Err.BackendError e)) := by
  simp [encoder_receive_packet, h]

theorem receive_fst (env : Env) (s : Encoder) :
    (encoder_receive_packet env s).1 =
      { s with recvCalls := s.recvCalls + 1 } := by
  cases h : env.recv s.recvCalls with
  | packet p => rw [receive_eq_packet h]
  | again => rw [receive_eq_again h]
  | err e => rw [receive_eq_err h]

theorem receive_inv {s : Encoder} (hs : Inv env s0 s) :
    Inv env s0 (encoder_receive_packet env s).1 := by
  rw [receive_fst]
  exact ⟨hs.idx_eq, hs.tb_eq, hs.ilv_eq, hs.hdr_count, hs.hdr_leads,
         hs.trl_count, hs.trl_imp_hdr, hs.hdr_imp_submit, hs.fc_eq,
         hs.cadence, hs.packets⟩

theorem write_eq_err {s : Encoder} {p : Packet} {e : Nat}
    (h : env.writeErr s.writeCalls = some e) :
    write env s p = ({ s with writeCalls := s.writeCalls + 1 },
      Except.error (Err.BackendError e)) := by
  simp [write, h]

theorem write_eq_ok {s : Encoder} {p : Packet}
    (h : env.writeErr s.writeCalls = none) :
    write env s p =
      ({ s with
          writeCalls := s.writeCalls + 1
          trace := s.trace ++
            [MuxEvent.packet p
              { pts := env.rescale p.pts s.encoder_time_base
                  env.streamTimeBase
                dts := env.rescale p.dts s.encoder_time_base
                  env.streamTimeBase
                stream := s.writer_stream_index
                position := -1 } s.interleaved]
          frame_count := s.frame_count + 1 }, Except.ok ()) := by
  simp [write, h]

theorem write_preserved (env : Env) (s : Encoder) (p : Packet) :
    (write env s p).1.have_written_header = s.have_written_header ∧
    (write env s p).1.have_written_trailer = s.have_written_trailer ∧
    (write env s p).1.sent = s.sent ∧
    (write env s p).1.recvCalls = s.recvCalls ∧
    (write env s p).1.validSubmits = s.validSubmits ∧
    trailerCount (write env s p).1.trace = trailerCount s.trace ∧
    headerCount (write env s p).1.trace = headerCount s.trace := by
  cases h : env.writeErr s.writeCalls with
  | some e => rw [write_eq_err h]; exact ⟨rfl, rfl, rfl, rfl, rfl, rfl, rfl⟩
  | none =>
      rw [write_eq_ok h]
      refine ⟨rfl, rfl, rfl, rfl, rfl, ?_, ?_⟩
      · simp [trailerCount_append, trailerCount, List.filter,
              MuxEvent.isTrailer]
      · simp [headerCount_append, headerCount, List.filter,
              MuxEvent.isHeader]

theorem write_inv {s : Encoder} {p : Packet} (hs : Inv env s0 s)
    (hh : s.have_written_header = true) :
    Inv env s0 (write env s p).1 := by
  cases h : env.writeErr s.writeCalls with
  | some e =>
      rw [write_eq_err h]
      exact ⟨hs.idx_eq, hs.tb_eq, hs.ilv_eq, hs.hdr_count, hs.hdr_leads,
             hs.trl_count, hs.trl_imp_hdr, hs.hdr_imp_submit, hs.fc_eq,
             hs.cadence, hs.packets⟩
  | none =>
      rw [write_eq_ok h]
      have hne : s.trace ≠ [] := by
        apply ne_nil_of_headerCount_pos
        rw [hs.hdr_count, hh]
        simp
      refine ⟨hs.idx_eq, hs.tb_eq, hs.ilv_eq, ?_, ?_, ?_, hs.trl_imp_hdr,
              hs.hdr_imp_submit, ?_, hs.cadence, ?_⟩
      · show headerCount (s.trace ++ _) = _
        rw [headerCount_append]
        simpa [headerCount, List.filter, MuxEvent.isHeader] using
          hs.hdr_count
      · show headerLeads (s.trace ++ _) = true
        rw [headerLeads_append _ hne]
        exact hs.hdr_leads
      · show trailerCount (s.trace ++ _) ≤ _
        rw [trailerCount_append]
        simpa [trailerCount, List.filter, MuxEvent.isTrailer] using
          hs.trl_count
      · show s.frame_count + 1 = packetCount (s.trace ++ _)
        rw [packetCount_append, ← hs.fc_eq]
        simp [packetCount, List.filter, MuxEvent.isPacket]
      · show List.all (s.trace ++ _) _ = true
        rw [List.all_append]
        refine (Bool.and_eq_true _ _).mpr ⟨hs.packets, ?_⟩
        simp [packetOk, hs.idx_eq, hs.tb_eq, hs.ilv_eq]

theorem whin_preserved (env : Env) (s : Encoder) :
    (writeHeaderIfNeeded env s).1.frame_count = s.frame_count ∧
    (writeHeaderIfNeeded env s).1.have_written_trailer =
      s.have_written_trailer ∧
    (writeHeaderIfNeeded env s).1.validSubmits = s.validSubmits ∧
    (writeHeaderIfNeeded env s).1.sent = s.sent ∧
    (writeHeaderIfNeeded env s).1.sendCalls = s.sendCalls ∧
    (writeHeaderIfNeeded env s).1.recvCalls = s.recvCalls ∧
    (writeHeaderIfNeeded env s).1.writeCalls = s.writeCalls ∧
    trailerCount (writeHeaderIfNeeded env s).1.trace =
      trailerCount s.trace := by
  unfold writeHeaderIfNeeded
  split
  · exact ⟨rfl, rfl, rfl, rfl, rfl, rfl, rfl, rfl⟩
  · cases h : env.headerErr s.headerTries with
    | some e => exact ⟨rfl, rfl, rfl, rfl, rfl, rfl, rfl, rfl⟩
    | none =>
        refine ⟨rfl, rfl, rfl, rfl, rfl, rfl, rfl, ?_⟩
        simp [trailerCount_append, trailerCount, List.filter,
              MuxEvent.isTrailer]

theorem whin_ok_flag {s s' : Encoder} {u : Unit}
    (h : writeHeaderIfNeeded env s = (s', Except.ok u)) :
    s'.have_written_header = true := by
  unfold writeHeaderIfNeeded at h
  split at h
  · rename_i hf
    cases h
    exact hf
  · cases hE : env.headerErr s.headerTries <;> rw [hE] at h
    · cases h
      rfl
    · cases h

theorem whin_inv {s : Encoder} (hs : Inv env s0 s)
    (hv : 1 ≤ s.validSubmits) :
    Inv env s0 (writeHeaderIfNeeded env s).1 := by
  unfold writeHeaderIfNeeded
  split
  · exact hs
  · rename_i hf
    rw [Bool.not_eq_true] at hf
    cases hE : env.headerErr s.headerTries with
    | some e =>
        exact ⟨hs.idx_eq, hs.tb_eq, hs.ilv_eq, hs.hdr_count, hs.hdr_leads,
               hs.trl_count, hs.trl_imp_hdr, hs.hdr_imp_submit, hs.fc_eq,
               hs.cadence, hs.packets⟩
    | none =>
        have ht : s.trace = [] := by
          apply trace_nil_of_no_header hs.hdr_leads
          rw [hs.hdr_count, hf]
          simp
        refine ⟨hs.idx_eq, hs.tb_eq, hs.ilv_eq, ?_, ?_, ?_, ?_,
                fun _ => hv, ?_, hs.cadence, ?_⟩
        · show headerCount (s.trace ++ [MuxEvent.header]) = _
          rw [ht]
          rfl
        · show headerLeads (s.trace ++ [MuxEvent.header]) = true
          rw [ht]
          rfl
        · show trailerCount (s.trace ++ [MuxEvent.header]) ≤ _
          rw [ht]
          simp [trailerCount, List.filter, MuxEvent.isTrailer]
        · intro h
          rfl
        · show s.frame_count = packetCount (s.trace ++ [MuxEvent.header])
          have := hs.fc_eq
          rw [ht] at this
          rw [ht]
          simpa [packetCount, List.filter, MuxEvent.isPacket] using this
        · show List.all (s.trace ++ [MuxEvent.header]) _ = true
          rw [ht]
          rfl

theorem sendFrame_fst (env : Env) (s : Encoder) (fr : RawFrame) :
    (sendFrame env s fr).1 =
      { s with
          sendCalls := s.sendCalls + 1
          sent := s.sent ++ [(s.frame_count, fr)] } := by
  unfold sendFrame
  cases h : env.sendFrameErr s.sendCalls <;> simp [h]

theorem sendFrame_inv {s : Encoder} {fr : RawFrame} (hs : Inv env s0 s)
    (hk : fr.kind_I = (s.frame_count % Encoder.KEY_FRAME_INTERVAL == 0)) :
    Inv env s0 (sendFrame env s fr).1 := by
  rw [sendFrame_fst]
  refine ⟨hs.idx_eq, hs.tb_eq, hs.ilv_eq, hs.hdr_count, hs.hdr_leads,
          hs.trl_count, hs.trl_imp_hdr, hs.hdr_imp_submit, hs.fc_eq, ?_,
          hs.packets⟩
  show List.all (s.sent ++ [(s.frame_count, fr)]) _ = true
  rw [List.all_append]
  refine (Bool.and_eq_true _ _).mpr ⟨hs.cadence, ?_⟩
  simp [hk]

theorem markKey_kind {c : Nat} {fr : RawFrame} (h : fr.kind_I = false) :
    (markKey c fr).kind_I = (c % Encoder.KEY_FRAME_INTERVAL == 0) := by
  unfold markKey
  cases hc : (c % Encoder.KEY_FRAME_INTERVAL == 0) <;> simp [hc, h]

theorem encode_raw_inv {s : Encoder} {f : RawFrame} (hs : Inv env s0 s) :
    Inv env s0 (encode_raw env s f).1 := by
  have hsA : Inv env s0 { s with validSubmits := s.validSubmits + 1 } :=
    ⟨hs.idx_eq, hs.tb_eq, hs.ilv_eq, hs.hdr_count, hs.hdr_leads,
     hs.trl_count, hs.trl_imp_hdr,
     fun h => le_trans (hs.hdr_imp_submit h) (Nat.le_succ _),
     hs.fc_eq, hs.cadence, hs.packets⟩
  have hvA : 1 ≤ ({ s with validSubmits := s.validSubmits + 1 } :
      Encoder).validSubmits := Nat.le_add_left 1 _
  unfold encode_raw
  split
  · split
    · rename_i s1 e heq
      have h1 := whin_inv hsA hvA
      rw [heq] at h1
      exact h1
    · rename_i s1 u heq
      have h1 : Inv env s0 s1 := by
        have h' := whin_inv hsA hvA
        rw [heq] at h'
        exact h'
      have hh1 : s1.have_written_header = true := whin_ok_flag heq
      split
      · exact h1
      · rename_i fr0 heq2
        have hk0 := (scale_ok heq2).1
        have hk := markKey_kind (c := s1.frame_count) hk0
        split
        · rename_i s2 e heq3
          have h2 := sendFrame_inv h1 hk
          rw [heq3] at h2
          exact h2
        · rename_i s2 u2 heq3
          have h2 : Inv env s0 s2 := by
            have h' := sendFrame_inv h1 hk
            rw [heq3] at h'
            exact h'
          have hh2 : s2.have_written_header = true := by
            have h' := sendFrame_fst env s1
              (markKey s1.frame_count fr0)
            rw [heq3] at h'
            rw [show s2 = _ from h']
            exact hh1
          split
          · rename_i s3 e heq4
            have h3 := receive_inv h2
            rw [heq4] at h3
            exact h3
          · rename_i s3 heq4
            have h3 := receive_inv h2
            rw [heq4] at h3
            exact h3
          · rename_i s3 p heq4
            have h3 : Inv env s0 s3 := by
              have h' := receive_inv h2
              rw [heq4] at h'
              exact h'
            have hh3 : s3.have_written_header = true := by
              have h' := receive_fst env s2
              rw [heq4] at h'
              rw [show s3 = _ from h']
              exact hh2
            exact write_inv h3 hh3
  · exact hs

theorem encode_raw_preserved (env : Env) (s : Encoder) (f : RawFrame) :
    (encode_raw env s f).1.have_written_trailer = s.have_written_trailer ∧
    trailerCount (encode_raw env s f).1.trace = trailerCount s.trace := by
  unfold encode_raw
  split
  · split
    · rename_i s1 e heq
      have h' := whin_preserved env
        { s with validSubmits := s.validSubmits + 1 }
      rw [heq] at h'
      exact ⟨h'.2.1, h'.2.2.2.2.2.2.2⟩
    · rename_i s1 u heq
      have h' := whin_preserved env
        { s with validSubmits := s.validSubmits + 1 }
      rw [heq] at h'
      have hp1 : s1.have_written_trailer = s.have_written_trailer := h'.2.1
      have hc1 : trailerCount s1.trace = trailerCount s.trace :=
        h'.2.2.2.2.2.2.2
      split
      · exact ⟨hp1, hc1⟩
      · rename_i fr0 heq2
        split
        · rename_i s2 e heq3
          have h2 := sendFrame_fst env s1
            (markKey s1.frame_count fr0)
          rw [heq3] at h2
          rw [show s2 = _ from h2]
          exact ⟨hp1, hc1⟩
        · rename_i s2 u2 heq3
          have h2 := sendFrame_fst env s1
            (markKey s1.frame_count fr0)
          rw [heq3] at h2
          have hp2 : s2.have_written_trailer = s.have_written_trailer := by
            rw [show s2 = _ from h2]
            exact hp1
          have hc2 : trailerCount s2.trace = trailerCount s.trace := by
            rw [show s2 = _ from h2]
            exact hc1
          split
          · rename_i s3 e heq4
            have h3 := receive_fst env s2
            rw [heq4] at h3
            rw [show s3 = _ from h3]
            exact ⟨hp2, hc2⟩
          · rename_i s3 heq4
            have h3 := receive_fst env s2
            rw [heq4] at h3
            rw [show s3 = _ from h3]
            exact ⟨hp2, hc2⟩
          · rename_i s3 p heq4
            have h3 := receive_fst env s2
            rw [heq4] at h3
            have hp3 : s3.have_written_trailer = s.have_written_trailer := by
              rw [show s3 = _ from h3]
              exact hp2
            have hc3 : trailerCount s3.trace = trailerCount s.trace := by
              rw [show s3 = _ from h3]
              exact hc2
            have h4 := write_preserved env s3 p
            exact ⟨h4.2.1.trans hp3, h4.2.2.2.2.2.1.trans hc3⟩
  · exact ⟨rfl, rfl⟩

theorem drainLoop_preserved (env : Env) (n : Nat) (s : Encoder) :
    (drainLoop env n s).1.have_written_header = s.have_written_header ∧
    (drainLoop env n s).1.have_written_trailer = s.have_written_trailer ∧
    (drainLoop env n s).1.sent = s.sent ∧
    trailerCount (drainLoop env n s).1.trace = trailerCount s.trace ∧
    (drainLoop env n s).1.recvCalls ≤ s.recvCalls + n := by
  induction n generalizing s with
  | zero => exact ⟨rfl, rfl, rfl, rfl, Nat.le_add_right _ _⟩
  | succ n ih =>
      unfold drainLoop
      split
      · rename_i s' p heq
        have h1 := receive_fst env s
        rw [heq] at h1
        have hfst : s' = { s with recvCalls := s.recvCalls + 1 } := h1
        split
        · rename_i s'' u hw
          have h2 := write_preserved env s' p
          rw [hw] at h2
          have h3 := ih s''
          refine ⟨?_, ?_, ?_, ?_, ?_⟩
          · rw [h3.1, h2.1, hfst]
          · rw [h3.2.1, h2.2.1, hfst]
          · rw [h3.2.2.1, h2.2.2.1, hfst]
          · rw [h3.2.2.2.1, h2.2.2.2.2.2.1, hfst]
          · have hrc : s''.recvCalls = s.recvCalls + 1 := by
              rw [h2.2.2.2.1, hfst]
            have := h3.2.2.2.2
            omega
        · rename_i s'' e hw
          have h2 := write_preserved env s' p
          rw [hw] at h2
          refine ⟨?_, ?_, ?_, ?_, ?_⟩
          · rw [h2.1, hfst]
          · rw [h2.2.1, hfst]
          · rw [h2.2.2.1, hfst]
          · rw [h2.2.2.2.2.2.1, hfst]
          · have : s''.recvCalls = s.recvCalls + 1 := by
              rw [h2.2.2.2.1, hfst]
            show s''.recvCalls ≤ s.recvCalls + (n + 1)
            omega
      · rename_i s' heq
        have h1 := receive_fst env s
        rw [heq] at h1
        have hfst : s' = { s with recvCalls := s.recvCalls + 1 } := h1
        have h3 := ih s'
        refine ⟨?_, ?_, ?_, ?_, ?_⟩
        · rw [h3.1, hfst]
        · rw [h3.2.1, hfst]
        · rw [h3.2.2.1, hfst]
        · rw [h3.2.2.2.1, hfst]
        · have ha := h3.2.2.2.2
          have hb : s'.recvCalls = s.recvCalls + 1 := by rw [hfst]
          omega
      · rename_i s' e heq
        have h1 := receive_fst env s
        rw [heq] at h1
        have hfst : s' = { s with recvCalls := s.recvCalls + 1 } := h1
        refine ⟨?_, ?_, ?_, ?_, ?_⟩
        · rw [hfst]
        · rw [hfst]
        · rw [hfst]
        · rw [hfst]
        · rw [hfst]
          show s.recvCalls + 1 ≤ s.recvCalls + (n + 1)
          omega

theorem drainLoop_inv (n : Nat) {s : Encoder} (hs : Inv env s0 s)
    (hh : s.have_written_header = true) :
    Inv env s0 (drainLoop env n s).1 := by
  induction n generalizing s with
  | zero => exact hs
  | succ n ih =>
      unfold drainLoop
      split
      · rename_i s' p heq
        have h1 := receive_fst env s
        rw [heq] at h1
        have hfst : s' = { s with recvCalls := s.recvCalls + 1 } := h1
        have hs' : Inv env s0 s' := by
          have h' := receive_inv hs
          rw [heq] at h'
          exact h'
        have hh' : s'.have_written_header = true := by rw [hfst]; exact hh
        split
        · rename_i s'' u hw
          have h2 := write_preserved env s' p
          rw [hw] at h2
          have hs'' : Inv env s0 s'' := by
            have h' := write_inv (p := p) hs' hh'
            rw [hw] at h'
            exact h'
          have hh'' : s''.have_written_header = true := by
            rw [show s''.have_written_header = _ from h2.1]
            exact hh'
          exact ih hs'' hh''
        · rename_i s'' e hw
          have h' := write_inv (p := p) hs' hh'
          rw [hw] at h'
          exact h'
      · rename_i s' heq
        have h1 := receive_fst env s
        rw [heq] at h1
        have hfst : s' = { s with recvCalls := s.recvCalls + 1 } := h1
        have hs' : Inv env s0 s' := by
          have h' := receive_inv hs
          rw [heq] at h'
          exact h'
        have hh' : s'.have_written_header = true := by rw [hfst]; exact hh
        exact ih hs' hh'
      · rename_i s' e heq
        have h' := receive_inv hs
        rw [heq] at h'
        exact h'

theorem drainLoop_again (h : ∀ n, env.recv n = RecvResult.again) :
    ∀ (n : Nat) (s : Encoder),
    drainLoop env n s =
      ({ s with recvCalls := s.recvCalls + n }, Except.ok ()) := by
  intro n
  induction n with
  | zero => intro s; rfl
  | succ n ih =>
      intro s
      unfold drainLoop
      rw [receive_eq_again (h s.recvCalls)]
      show drainLoop env n { s with recvCalls := s.recvCalls + 1 } = _
      rw [ih]
      have harith : s.recvCalls + 1 + n = s.recvCalls + (n + 1) := by omega
      rw [show ({ s with recvCalls := s.recvCalls + 1 } :
        Encoder).recvCalls = s.recvCalls + 1 from rfl, harith]

theorem drainLoop_err_first {s : Encoder} {e : Nat}
    (h : env.recv s.recvCalls = RecvResult.err e) (n : Nat) :
    drainLoop env (n + 1) s =
      ({ s with recvCalls := s.recvCalls + 1 }, Except.ok ()) := by
  unfold drainLoop
  rw [receive_eq_err h]

theorem flush_eq_eof_err {s : Encoder} {e : Nat}
    (h : env.sendEofErr = some e) :
    flush env s = (s, Except.error (Err.BackendError e)) := by
  simp [flush, h]

theorem flush_eq_drain {s : Encoder} (h : env.sendEofErr = none) :
    flush env s = drainLoop env MAX_DRAIN_ITERATIONS s := by
  simp [flush, h]

theorem flush_preserved (env : Env) (s : Encoder) :
    (flush env s).1.have_written_header = s.have_written_header ∧
    (flush env s).1.have_written_trailer = s.have_written_trailer ∧
    (flush env s).1.sent = s.sent ∧
    trailerCount (flush env s).1.trace = trailerCount s.trace ∧
    (flush env s).1.recvCalls ≤ s.recvCalls + MAX_DRAIN_ITERATIONS := by
  cases h : env.sendEofErr with
  | some e =>
      rw [flush_eq_eof_err h]
      exact ⟨rfl, rfl, rfl, rfl, Nat.le_add_right _ _⟩
  | none =>
      rw [flush_eq_drain h]
      exact drainLoop_preserved env MAX_DRAIN_ITERATIONS s

theorem flush_inv {s : Encoder} (hs : Inv env s0 s)
    (hh : s.have_written_header = true) : Inv env s0 (flush env s).1 := by
  cases h : env.sendEofErr with
  | some e => rw [flush_eq_eof_err h]; exact hs
  | none => rw [flush_eq_drain h]; exact drainLoop_inv _ hs hh

theorem finish_noop {s : Encoder}
    (h : s.have_written_header = false ∨ s.have_written_trailer = true) :
    finish env s = (s, Except.ok ()) := by
  have hc : (s.have_written_header && !s.have_written_trailer) = false := by
    rcases h with h | h <;> simp [h]
  unfold finish
  rw [hc]
  simp

theorem finish_shape (env : Env) (s : Encoder)
    (hh : s.have_written_header = true)
    (ht : s.have_written_trailer = false) :
    (∃ s2 e,
        flush env { s with have_written_trailer := true } =
          (s2, Except.error e) ∧
        finish env s = (s2, Except.error e)) ∨
    (∃ s2 e,
        flush env { s with have_written_trailer := true } =
          (s2, Except.ok ()) ∧
        env.trailerErr = some e ∧
        finish env s = (s2, Except.error (Err.BackendError e))) ∨
    (∃ s2,
        flush env { s with have_written_trailer := true } =
          (s2, Except.ok ()) ∧
        env.trailerErr = none ∧
        finish env s =
          ({ s2 with trace := s2.trace ++ [MuxEvent.trailer] },
            Except.ok ())) := by
  unfold finish
  rw [hh, ht]
  simp only [Bool.not_false, Bool.and_self, if_true]
  split
  · rename_i s2 e heq
    exact Or.inl ⟨s2, e, heq, rfl⟩
  · rename_i s2 u heq
    cases hT : env.trailerErr with
    | some e => exact Or.inr (Or.inl ⟨s2, e, heq, rfl, rfl⟩)
    | none => exact Or.inr (Or.inr ⟨s2, heq, rfl, rfl⟩)

theorem finish_trailer_flag {s : Encoder}
    (hh : s.have_written_header = true)
    (ht : s.have_written_trailer = false) :
    (finish env s).1.have_written_trailer = true := by
  rcases finish_shape env s hh ht with
    ⟨s2, e', hfl, hfin⟩ | ⟨s2, e', hfl, hT, hfin⟩ | ⟨s2, hfl, hT, hfin⟩
  · rw [hfin]
    have hfp := flush_preserved env { s with have_written_trailer := true }
    rw [hfl] at hfp
    exact hfp.2.1
  · rw [hfin]
    have hfp := flush_preserved env { s with have_written_trailer := true }
    rw [hfl] at hfp
    exact hfp.2.1
  · rw [hfin]
    have hfp := flush_preserved env { s with have_written_trailer := true }
    rw [hfl] at hfp
    exact hfp.2.1

theorem finish_finish (env : Env) (s : Encoder) :
    finish env ((finish env s).1) = ((finish env s).1, Except.ok ()) := by
  by_cases hh : s.have_written_header = true
  · by_cases ht : s.have_written_trailer = true
    · rw [finish_noop (Or.inr ht)]
      exact finish_noop (Or.inr ht)
    · rw [Bool.not_eq_true] at ht
      exact finish_noop (Or.inr (finish_trailer_flag hh ht))
  · rw [Bool.not_eq_true] at hh
    rw [finish_noop (Or.inl hh)]
    exact finish_noop (Or.inl hh)

theorem finish_error_spec {s : Encoder} {e : Err}
    (hh : s.have_written_header = true)
    (ht : s.have_written_trailer = false)
    (herr : (finish env s).2 = Except.error e) :
    (finish env s).1.have_written_trailer = true ∧
    trailerCount (finish env s).1.trace = trailerCount s.trace := by
  rcases finish_shape env s hh ht with
    ⟨s2, e', hfl, hfin⟩ | ⟨s2, e', hfl, hT, hfin⟩ | ⟨s2, hfl, hT, hfin⟩
  · rw [hfin]
    have hfp := flush_preserved env { s with have_written_trailer := true }
    rw [hfl] at hfp
    exact ⟨hfp.2.1, hfp.2.2.2.1⟩
  · rw [hfin]
    have hfp := flush_preserved env { s with have_written_trailer := true }
    rw [hfl] at hfp
    exact ⟨hfp.2.1, hfp.2.2.2.1⟩
  · rw [hfin] at herr
    simp at herr

theorem finish_inv {s : Encoder} (hs : Inv env s0 s) :
    Inv env s0 (finish env s).1 := by
  by_cases hh : s.have_written_header = true
  · by_cases ht : s.have_written_trailer = true
    · rw [finish_noop (Or.inr ht)]
      exact hs
    · rw [Bool.not_eq_true] at ht
      have hs1 : Inv env s0 { s with have_written_trailer := true } := by
        refine ⟨hs.idx_eq, hs.tb_eq, hs.ilv_eq, hs.hdr_count, hs.hdr_leads,
                ?_, fun _ => hh, hs.hdr_imp_submit, hs.fc_eq, hs.cadence,
                hs.packets⟩
        show trailerCount s.trace ≤ 1
        have h0 := hs.trl_count
        rw [ht] at h0
        simp at h0
        omega
      have hh1 : ({ s with have_written_trailer := true } :
          Encoder).have_written_header = true := hh
      rcases finish_shape env s hh ht with
        ⟨s2, e', hfl, hfin⟩ | ⟨s2, e', hfl, hT, hfin⟩ | ⟨s2, hfl, hT, hfin⟩
      · rw [hfin]
        have h' := flush_inv hs1 hh1
        rw [hfl] at h'
        exact h'
      · rw [hfin]
        have h' := flush_inv hs1 hh1
        rw [hfl] at h'
        exact h'
      · rw [hfin]
        have h2 : Inv env s0 s2 := by
          have h' := flush_inv hs1 hh1
          rw [hfl] at h'
          exact h'
        have hfp := flush_preserved env { s with have_written_trailer := true }
        rw [hfl] at hfp
        have hhdr2 : s2.have_written_header = true := by
          rw [show s2.have_written_header = _ from hfp.1]
          exact hh
        have htr2 : s2.have_written_trailer = true := hfp.2.1
        have hcnt2 : trailerCount s2.trace = 0 := by
          rw [show trailerCount s2.trace = _ from hfp.2.2.2.1]
          show trailerCount s.trace = 0
          have h0 := hs.trl_count
          rw [ht] at h0
          simp at h0
          omega
        have hne : s2.trace ≠ [] := by
          apply ne_nil_of_headerCount_pos
          rw [h2.hdr_count, hhdr2]
          simp
        refine ⟨h2.idx_eq, h2.tb_eq, h2.ilv_eq, ?_, ?_, ?_, ?_, ?_, ?_,
                h2.cadence, ?_⟩
        · show headerCount (s2.trace ++ [MuxEvent.trailer]) = _
          rw [headerCount_append]
          simpa [headerCount, List.filter, MuxEvent.isHeader] using
            h2.hdr_count
        · show headerLeads (s2.trace ++ [MuxEvent.trailer]) = true
          rw [headerLeads_append _ hne]
          exact h2.hdr_leads
        · show trailerCount (s2.trace ++ [MuxEvent.trailer]) ≤
            (if s2.have_written_trailer then 1 else 0)
          rw [trailerCount_append, hcnt2, htr2]
          simp [trailerCount, List.filter, MuxEvent.isTrailer]
        · intro _
          exact hhdr2
        · intro _
          exact h2.hdr_imp_submit hhdr2
        · show s2.frame_count = packetCount (s2.trace ++ [MuxEvent.trailer])
          rw [packetCount_append]
          simpa [packetCount, List.filter, MuxEvent.isPacket] using h2.fc_eq
        · show List.all (s2.trace ++ [MuxEvent.trailer]) _ = true
          rw [List.all_append]
          exact (Bool.and_eq_true _ _).mpr ⟨h2.packets, by simp [packetOk]⟩
  · rw [Bool.not_eq_true] at hh
    rw [finish_noop (Or.inl hh)]
    exact hs

theorem finish_post {s : Encoder} (_hs : Inv env s0 s)
    (hct : trailerCount s.trace = 0) :
    noPacketAfterTrailer (finish env s).1.trace = true ∧
    ((finish env s).1.have_written_header = false ∨
      (finish env s).1.have_written_trailer = true) := by
  by_cases hh : s.have_written_header = true
  · by_cases ht : s.have_written_trailer = true
    · rw [finish_noop (Or.inr ht)]
      exact ⟨noPacketAfterTrailer_of_no_trailer hct, Or.inr ht⟩
    · rw [Bool.not_eq_true] at ht
      rcases finish_shape env s hh ht with
        ⟨s2, e', hfl, hfin⟩ | ⟨s2, e', hfl, hT, hfin⟩ | ⟨s2, hfl, hT, hfin⟩
      · rw [hfin]
        have hfp := flush_preserved env { s with have_written_trailer := true }
        rw [hfl] at hfp
        refine ⟨noPacketAfterTrailer_of_no_trailer ?_, Or.inr hfp.2.1⟩
        rw [show trailerCount s2.trace = _ from hfp.2.2.2.1]
        exact hct
      · rw [hfin]
        have hfp := flush_preserved env { s with have_written_trailer := true }
        rw [hfl] at hfp
        refine ⟨noPacketAfterTrailer_of_no_trailer ?_, Or.inr hfp.2.1⟩
        rw [show trailerCount s2.trace = _ from hfp.2.2.2.1]
        exact hct
      · rw [hfin]
        have hfp := flush_preserved env { s with have_written_trailer := true }
        rw [hfl] at hfp
        have hcnt2 : trailerCount s2.trace = 0 := by
          rw [show trailerCount s2.trace = _ from hfp.2.2.2.1]
          exact hct
        exact ⟨noPacketAfterTrailer_append_trailer hcnt2, Or.inr hfp.2.1⟩
  · rw [Bool.not_eq_true] at hh
    rw [finish_noop (Or.inl hh)]
    exact ⟨noPacketAfterTrailer_of_no_trailer hct, Or.inl hh⟩

end OpLemmas

section RunLemmas

variable {env : Env} {s0 : Encoder}

theorem run_nil (env : Env) (s : Encoder) : run env s [] = s := rfl

theorem run_cons (env : Env) (s : Encoder) (c : Cmd) (cs : List Cmd) :
    run env s (c :: cs) = run env (step env s c) cs := rfl

theorem run_append (env : Env) (s : Encoder) (as bs : List Cmd) :
    run env s (as ++ bs) = run env (run env s as) bs :=
  List.foldl_append _ _ _ _

theorem run_inv (cmds : List Cmd) {s : Encoder} (hs : Inv env s0 s) :
    Inv env s0 (run env s cmds) := by
  induction cmds generalizing s with
  | nil => exact hs
  | cons c cs ih =>
      rw [run_cons]
      cases c with
      | encode f => exact ih (encode_raw_inv hs)
      | finishCmd => exact ih (finish_inv hs)

theorem run_encodes (env : Env) (es : List Cmd) (hall : es.all Cmd.isEncode = true)
    {s : Encoder} :
    (run env s es).have_written_trailer = s.have_written_trailer ∧
    trailerCount (run env s es).trace = trailerCount s.trace := by
  induction es generalizing s with
  | nil => exact ⟨rfl, rfl⟩
  | cons c cs ih =>
      cases c with
      | encode f =>
          have hall' : cs.all Cmd.isEncode = true := by
            rw [List.all_cons] at hall
            exact ((Bool.and_eq_true _ _).mp hall).2
          rw [run_cons]
          have h1 := encode_raw_preserved env s f
          have h2 := ih hall' (s := (encode_raw env s f).1)
          exact ⟨h2.1.trans h1.1, h2.2.trans h1.2⟩
      | finishCmd =>
          rw [List.all_cons] at hall
          simp [Cmd.isEncode] at hall

theorem run_finishes_noop (fs : List Cmd)
    (hall : fs.all (fun c => !c.isEncode) = true) {s : Encoder}
    (h : s.have_written_header = false ∨ s.have_written_trailer = true) :
    run env s fs = s := by
  induction fs with
  | nil => rfl
  | cons c cs ih =>
      cases c with
      | encode f =>
          rw [List.all_cons] at hall
          simp [Cmd.isEncode] at hall
      | finishCmd =>
          rw [List.all_cons] at hall
          have hall' : cs.all (fun c => !c.isEncode) = true :=
            ((Bool.and_eq_true _ _).mp hall).2
          rw [run_cons]
          show run env (finish env s).1 cs = s
          rw [finish_noop h]
          exact ih hall'

theorem decompose_noEncAfterFin (cmds : List Cmd)
    (h : noEncAfterFin cmds = true) :
    ∃ es fs, cmds = es ++ fs ∧ es.all Cmd.isEncode = true ∧
      fs.all (fun c => !c.isEncode) = true := by
  induction cmds with
  | nil => exact ⟨[], [], rfl, rfl, rfl⟩
  | cons c cs ih =>
      cases c with
      | finishCmd =>
          refine ⟨[], Cmd.finishCmd :: cs, rfl, rfl, ?_⟩
          rw [List.all_cons]
          refine (Bool.and_eq_true _ _).mpr ⟨rfl, ?_⟩
          exact h
      | encode f =>
          have h' : noEncAfterFin cs = true := h
          obtain ⟨es, fs, heq, he, hf⟩ := ih h'
          refine ⟨Cmd.encode f :: es, fs, by rw [heq]; rfl, ?_, hf⟩
          rw [List.all_cons]
          exact (Bool.and_eq_true _ _).mpr ⟨rfl, he⟩

theorem run_master (s0 : Encoder) (hs0 : Inv env s0 s0)
    (_hfl : s0.have_written_trailer = false)
    (hct : trailerCount s0.trace = 0)
    (cmds : List Cmd) (hseq : noEncAfterFin cmds = true) :
    Inv env s0 (run env s0 cmds) ∧
    noPacketAfterTrailer (run env s0 cmds).trace = true := by
  obtain ⟨es, fs, rfl, he, hf⟩ := decompose_noEncAfterFin cmds hseq
  rw [run_append]
  have hsm : Inv env s0 (run env s0 es) := run_inv es hs0
  have hpm := run_encodes env es he (s := s0)
  have hctm : trailerCount (run env s0 es).trace = 0 := by
    rw [hpm.2]
    exact hct
  cases fs with
  | nil =>
      exact ⟨hsm, noPacketAfterTrailer_of_no_trailer hctm⟩
  | cons c fs' =>
      cases c with
      | encode f =>
          rw [List.all_cons] at hf
          simp [Cmd.isEncode] at hf
      | finishCmd =>
          rw [List.all_cons] at hf
          have hf' : fs'.all (fun c => !c.isEncode) = true :=
            ((Bool.and_eq_true _ _).mp hf).2
          have hps := finish_post hsm hctm
          rw [run_cons]
          show Inv env s0 (run env (finish env (run env s0 es)).1 fs') ∧
            noPacketAfterTrailer
              (run env (finish env (run env s0 es)).1 fs').trace = true
          rw [run_finishes_noop fs' hf' hps.2]
          exact ⟨finish_inv hsm, hps.1⟩

end RunLemmas

section ShapeLemmas

variable {env : Env}

theorem whin_err_shape {s s' : Encoder} {e : Err}
    (h : writeHeaderIfNeeded env s = (s', Except.error e)) :
    ∃ c, e = Err.BackendError c := by
  unfold writeHeaderIfNeeded at h
  split at h
  · simp at h
  · cases hE : env.headerErr s.headerTries <;> rw [hE] at h
    · simp at h
    · rename_i c
      simp at h
      exact ⟨c, h.2.symm⟩

theorem scale_err_shape {s : Encoder} {f : RawFrame} {e : Err}
    (h : scale env s f = Except.error e) : ∃ c, e = Err.BackendError c := by
  cases hE : env.scaleErr f with
  | none => rw [scale_eq_ok hE] at h; cases h
  | some c =>
      rw [scale_eq_err hE] at h
      simp at h
      exact ⟨c, h.symm⟩

theorem sendFrame_err_shape {s s' : Encoder} {fr : RawFrame} {e : Err}
    (h : sendFrame env s fr = (s', Except.error e)) :
    ∃ c, e = Err.BackendError c := by
  unfold sendFrame at h
  cases hE : env.sendFrameErr s.sendCalls <;> rw [hE] at h
  · simp at h
  · rename_i c
    simp at h
    exact ⟨c, h.2.symm⟩

theorem receive_err_shape {s s' : Encoder} {e : Err}
    {r : Except Err (Option Packet)}
    (h : encoder_receive_packet env s = (s', r))
    (hr : r = Except.error e) : ∃ c, e = Err.BackendError c := by
  subst hr
  cases hE : env.recv s.recvCalls with
  | packet p => rw [receive_eq_packet hE] at h; simp at h
  | again => rw [receive_eq_again hE] at h; simp at h
  | err c =>
      rw [receive_eq_err hE] at h
      simp at h
      exact ⟨c, h.2.symm⟩

theorem write_snd (env : Env) (s : Encoder) (p : Packet) :
    (write env s p).2 = Except.ok () ∨
    ∃ c, (write env s p).2 = Except.error (Err.BackendError c) := by
  cases hE : env.writeErr s.writeCalls with
  | some c => rw [write_eq_err hE]; exact Or.inr ⟨c, rfl⟩
  | none => rw [write_eq_ok hE]; exact Or.inl rfl

end ShapeLemmas

theorem Inv_init (env : Env) (idx : Nat) (etb : Rat2) (pf : Pixel)
    (w h : Nat) (ilv : Bool) :
    Inv env (Encoder.init idx etb pf w h ilv)
      (Encoder.init idx etb pf w h ilv) := by
  refine ⟨rfl, rfl, rfl, rfl, rfl, ?_, ?_, ?_, rfl, rfl, rfl⟩
  · show (0 : Nat) ≤ 0
    exact Nat.le_refl 0
  · intro h'
    cases h'
  · intro h'
    cases h'

/-- Claim C1 (amended): across any sequence of `encode_raw` and `finish`
calls in which no `encode_raw` call occurs after a `finish` call, the
container header is written at most once, strictly before every packet
write (a nonempty trace starts with the header), and only if at least one
frame passing format validation was submitted; the trailer is written at
most once, only if the header was written, and strictly after all packet
writes. -/
theorem C1_lifecycle (env : Env) (idx : Nat) (etb : Rat2) (pf : Pixel)
    (w h : Nat) (ilv : Bool) (cmds : List Cmd)
    (hseq : noEncAfterFin cmds = true) :
    headerCount (run env (Encoder.init idx etb pf w h ilv) cmds).trace ≤ 1 ∧
    headerLeads (run env (Encoder.init idx etb pf w h ilv) cmds).trace =
      true ∧
    (1 ≤ headerCount (run env (Encoder.init idx etb pf w h ilv) cmds).trace →
      1 ≤ (run env (Encoder.init idx etb pf w h ilv) cmds).validSubmits) ∧
    trailerCount (run env (Encoder.init idx etb pf w h ilv) cmds).trace
      ≤ 1 ∧
    (1 ≤ trailerCount
        (run env (Encoder.init idx etb pf w h ilv) cmds).trace →
      1 ≤ headerCount
        (run env (Encoder.init idx etb pf w h ilv) cmds).trace) ∧
    noPacketAfterTrailer
      (run env (Encoder.init idx etb pf w h ilv) cmds).trace = true := by
  obtain ⟨hinv, hnp⟩ := run_master (Encoder.init idx etb pf w h ilv)
    (Inv_init env idx etb pf w h ilv) rfl rfl cmds hseq
  refine ⟨?_, hinv.hdr_leads, ?_, ?_, ?_, hnp⟩
  · have h1 := hinv.hdr_count
    cases hf : (run env (Encoder.init idx etb pf w h ilv)
        cmds).have_written_header <;> rw [hf] at h1 <;> simp at h1 <;>
      omega
  · intro hpos
    have h1 := hinv.hdr_count
    cases hf : (run env (Encoder.init idx etb pf w h ilv)
        cmds).have_written_header with
    | true => exact hinv.hdr_imp_submit hf
    | false =>
        rw [hf] at h1
        simp at h1
        omega
  · have h1 := hinv.trl_count
    cases hf : (run env (Encoder.init idx etb pf w h ilv)
        cmds).have_written_trailer <;> rw [hf] at h1 <;> simp at h1 <;>
      omega
  · intro hpos
    have h1 := hinv.trl_count
    cases hf : (run env (Encoder.init idx etb pf w h ilv)
        cmds).have_written_trailer with
    | false =>
        rw [hf] at h1
        simp at h1
        omega
    | true =>
        have hh := hinv.trl_imp_hdr hf
        have h2 := hinv.hdr_count
        rw [hh] at h2
        simp at h2
        omega

/-- Claim C1 witness instance: the amended lifecycle invariant evaluated
on a concrete one-frame run. -/
theorem C1_lifecycle_witness :
    noPacketAfterTrailer (run envScenario enc800
      [Cmd.encode frame800, Cmd.finishCmd]).trace = true ∧
    headerCount (run envScenario enc800
      [Cmd.encode frame800, Cmd.finishCmd]).trace ≤ 1 := by
  have h := C1_lifecycle envScenario 0 { num := 1, den := 90000 }
    Pixel.YUV420P 800 600 false [Cmd.encode frame800, Cmd.finishCmd]
    (by decide)
  exact ⟨h.2.2.2.2.2, h.1⟩

/-- Claim C1 counterexample: the claim as stated quantifies over any
sequence of `encode_raw` and `finish` calls, but when `encode_raw` is
called again after `finish` (with a codec that still has packets), a
packet is written to the muxer after the trailer, so the trailer is not
strictly after all packet writes. -/
theorem C1_counterexample :
    trailerCount (run envPackets enc800
      [Cmd.encode frame800, Cmd.finishCmd, Cmd.encode frame800]).trace
      = 1 ∧
    noPacketAfterTrailer (run envPackets enc800
      [Cmd.encode frame800, Cmd.finishCmd, Cmd.encode frame800]).trace
      = false := by
  decide

/-- Claim C2: a frame whose dimensions match the configured scaler
dimensions and whose pixel format is RGB24 or BGRA never makes
`encode_raw` return `InvalidFrameFormat`; any other frame makes
`encode_raw` return `InvalidFrameFormat` with the encoder state
completely unchanged (no converter, codec or muxer call). -/
theorem C2_frame_validation (env : Env) (s : Encoder) (f : RawFrame) :
    ((f.width = s.scaler_width ∧ f.height = s.scaler_height ∧
        (f.format = Pixel.RGB24 ∨ f.format = Pixel.BGRA)) →
      (encode_raw env s f).2 ≠ Except.error Err.InvalidFrameFormat) ∧
    (¬(f.width = s.scaler_width ∧ f.height = s.scaler_height ∧
        (f.format = Pixel.RGB24 ∨ f.format = Pixel.BGRA)) →
      encode_raw env s f = (s, Except.error Err.InvalidFrameFormat)) := by
  have hval : frameFormatOk s f = true ↔
      (f.width = s.scaler_width ∧ f.height = s.scaler_height ∧
        (f.format = Pixel.RGB24 ∨ f.format = Pixel.BGRA)) := by
    simp [frameFormatOk, and_assoc]
  constructor
  · intro hc
    have hv : frameFormatOk s f = true := hval.mpr hc
    unfold encode_raw
    rw [if_pos hv]
    split
    · rename_i s1 e heq
      obtain ⟨c, rfl⟩ := whin_err_shape heq
      simp
    · rename_i s1 u heq
      split
      · rename_i e heq2
        obtain ⟨c, rfl⟩ := scale_err_shape heq2
        simp
      · rename_i fr0 heq2
        split
        · rename_i s2 e heq3
          obtain ⟨c, rfl⟩ := sendFrame_err_shape heq3
          simp
        · rename_i s2 u2 heq3
          split
          · rename_i s3 e heq4
            obtain ⟨c, rfl⟩ := receive_err_shape heq4 rfl
            simp
          · rename_i s3 heq4
            simp
          · rename_i s3 p heq4
            rcases write_snd env s3 p with hw | ⟨c, hw⟩ <;> rw [hw] <;> simp
  · intro hc
    have hv : frameFormatOk s f = false := by
      cases hb : frameFormatOk s f with
      | true => exact absurd (hval.mp hb) hc
      | false => rfl
    unfold encode_raw
    rw [if_neg]
    rw [hv]
    simp

/-- Claim C2 witness instance: a mismatched 640 by 480 frame is rejected
with the state unchanged, while a matching 800 by 600 BGRA frame is never
rejected as `InvalidFrameFormat`. -/
theorem C2_frame_validation_witness :
    encode_raw envScenario enc800 frame640 =
      (enc800, Except.error Err.InvalidFrameFormat) ∧
    (encode_raw envScenario enc800 frame800).2 ≠
      Except.error Err.InvalidFrameFormat := by
  exact ⟨(C2_frame_validation envScenario enc800 frame640).2 (by decide),
         (C2_frame_validation envScenario enc800 frame800).1 (by decide)⟩

/-- Claim C3: in every run, each frame submitted to the codec is marked
as a forced key frame exactly when the `frame_count` at its submission is
a multiple of `KEY_FRAME_INTERVAL` (12), and `frame_count` equals the
number of packets successfully written to the muxer (it is incremented on
packet writes, not on frame submission). -/
theorem C3_keyframe_cadence (env : Env) (idx : Nat) (etb : Rat2)
    (pf : Pixel) (w h : Nat) (ilv : Bool) (cmds : List Cmd) :
    cadenceOk (run env (Encoder.init idx etb pf w h ilv) cmds) = true ∧
    (run env (Encoder.init idx etb pf w h ilv) cmds).frame_count =
      packetCount (run env (Encoder.init idx etb pf w h ilv) cmds).trace
      := by
  have hinv := run_inv cmds (Inv_init env idx etb pf w h ilv)
  exact ⟨hinv.cadence, hinv.fc_eq⟩

/-- Claim C4: the flush performed by `finish` makes at most
`MAX_DRAIN_ITERATIONS` (100) drain calls on the codec, and against a codec
that reports EAGAIN on every drain call it performs exactly 100 drain
calls and then returns success instead of looping or failing. -/
theorem C4_bounded_flush (env : Env) (s : Encoder) :
    (flush env s).1.recvCalls ≤ s.recvCalls + MAX_DRAIN_ITERATIONS ∧
    (env.sendEofErr = none → (∀ n, env.recv n = RecvResult.again) →
      flush env s =
        ({ s with recvCalls := s.recvCalls + MAX_DRAIN_ITERATIONS },
          Except.ok ())) := by
  refine ⟨(flush_preserved env s).2.2.2.2, ?_⟩
  intro hEof hAgain
  rw [flush_eq_drain hEof]
  exact drainLoop_again hAgain MAX_DRAIN_ITERATIONS s

/-- Claim C4 witness instance: the bounded flush evaluated against the
always-EAGAIN codec oracle from a fresh pipeline. -/
theorem C4_bounded_flush_witness :
    (flush envAgain enc800).1.recvCalls ≤
      enc800.recvCalls + MAX_DRAIN_ITERATIONS ∧
    flush envAgain enc800 =
      ({ enc800 with recvCalls := enc800.recvCalls + MAX_DRAIN_ITERATIONS },
        Except.ok ()) := by
  exact ⟨(C4_bounded_flush envAgain enc800).1,
         (C4_bounded_flush envAgain enc800).2 rfl (fun _ => rfl)⟩

/-- Claim C5: `finish` is idempotent: after any `finish` call, calling
`finish` again leaves the encoder state (muxer trace included) exactly as
it was and returns success, not an error. -/
theorem C5_finish_idempotent (env : Env) (s : Encoder) :
    finish env ((finish env s).1) = ((finish env s).1, Except.ok ()) :=
  finish_finish env s

/-- Claim C6: every packet handed to the muxer, in any run, has been
tagged with the pipeline's stream index, had its position invalidated to
-1, had its PTS and DTS rescaled from the encoder time base to the output
stream's time base, and was written in interleaved mode exactly when the
interleaved flag is set. -/
theorem C6_packet_write_discipline (env : Env) (idx : Nat) (etb : Rat2)
    (pf : Pixel) (w h : Nat) (ilv : Bool) (cmds : List Cmd) :
    List.all (run env (Encoder.init idx etb pf w h ilv) cmds).trace
      (packetOk env (Encoder.init idx etb pf w h ilv)) = true :=
  (run_inv cmds (Inv_init env idx etb pf w h ilv)).packets

/-- Claim C7: the transient EAGAIN drain state is surfaced as an empty
result, never as an error; a hard drain error is propagated by
`encoder_receive_packet`; in the flush loop a hard drain error stops
draining immediately (a single drain call) and is not surfaced as an
error of the flush; and a hard converter failure inside `encode_raw`
propagates to the caller as `BackendError`. -/
theorem C7_drain_error_policy (env : Env) (s : Encoder) (e : Nat)
    (f : RawFrame) :
    (env.recv s.recvCalls = RecvResult.again →
      encoder_receive_packet env s =
        ({ s with recvCalls := s.recvCalls + 1 }, Except.ok none)) ∧
    (env.recv s.recvCalls = RecvResult.err e →
      encoder_receive_packet env s =
        ({ s with recvCalls := s.recvCalls + 1 },
          Except.error (Err.BackendError e))) ∧
    (env.recv s.recvCalls = RecvResult.err e → ∀ n : Nat,
      drainLoop env (n + 1) s =
        ({ s with recvCalls := s.recvCalls + 1 }, Except.ok ())) ∧
    (frameFormatOk s f = true → s.have_written_header = true →
      env.scaleErr f = some e →
      encode_raw env s f =
        ({ s with validSubmits := s.validSubmits + 1 },
          Except.error (Err.BackendError e))) ∧
    (∀ p : Packet, env.writeErr s.writeCalls = some e →
      (write env s p).2 = Except.error (Err.BackendError e)) := by
  refine ⟨receive_eq_again, receive_eq_err,
          fun hr n => drainLoop_err_first hr n, ?_, ?_⟩
  case refine_2 =>
    intro p hw
    rw [write_eq_err hw]
  intro hv hh hsc
  have hA : writeHeaderIfNeeded env
      { s with validSubmits := s.validSubmits + 1 } =
      ({ s with validSubmits := s.validSubmits + 1 }, Except.ok ()) := by
    unfold writeHeaderIfNeeded
    rw [if_pos]
    exact hh
  unfold encode_raw
  rw [if_pos hv]
  simp only [hA]
  rw [scale_eq_err hsc]

/-- Claim C7 witness instance: the drain policy evaluated on concrete
oracles (always-EAGAIN codec, always-erroring codec, failing scaler). -/
theorem C7_drain_error_policy_witness :
    encoder_receive_packet envAgain enc800 =
      ({ enc800 with recvCalls := enc800.recvCalls + 1 },
        Except.ok none) ∧
    encoder_receive_packet envRecvErr enc800 =
      ({ enc800 with recvCalls := enc800.recvCalls + 1 },
        Except.error (Err.BackendError 9)) ∧
    drainLoop envRecvErr (0 + 1) enc800 =
      ({ enc800 with recvCalls := enc800.recvCalls + 1 },
        Except.ok ()) ∧
    encode_raw envScaleFail encStarted frame800 =
      ({ encStarted with validSubmits := encStarted.validSubmits + 1 },
        Except.error (Err.BackendError 3)) ∧
    (write envWriteFail enc800 samplePacket).2 =
      Except.error (Err.BackendError 4) := by
  exact ⟨(C7_drain_error_policy envAgain enc800 9 frame800).1 rfl,
         (C7_drain_error_policy envRecvErr enc800 9 frame800).2.1 rfl,
         (C7_drain_error_policy envRecvErr enc800 9 frame800).2.2.1 rfl 0,
         (C7_drain_error_policy envScaleFail encStarted 3 frame800).2.2.2.1
           (by decide) rfl rfl,
         (C7_drain_error_policy envWriteFail enc800 4 frame800).2.2.2.2
           samplePacket rfl⟩

/-- Claim C8 (amended): the single-frame scenario holds for a conforming
codec: an 800 by 600 pipeline fed one correctly-sized BGRA frame with PTS
0 followed by `finish` produces exactly one header write, one converted
and submitted frame, one trailer write, and as many packet writes as
frames submitted.  The unrestricted packets-equal-frames equality is
refuted by `C8_counterexample`. -/
theorem C8_single_frame_scenario :
    headerCount (run envScenario enc800
      [Cmd.encode frame800, Cmd.finishCmd]).trace = 1 ∧
    (run envScenario enc800
      [Cmd.encode frame800, Cmd.finishCmd]).sent.length = 1 ∧
    trailerCount (run envScenario enc800
      [Cmd.encode frame800, Cmd.finishCmd]).trace = 1 ∧
    packetCount (run envScenario enc800
      [Cmd.encode frame800, Cmd.finishCmd]).trace =
      (run envScenario enc800
        [Cmd.encode frame800, Cmd.finishCmd]).sent.length := by
  decide

/-- Claim C8 counterexample: against a codec that reports EAGAIN on every
drain call, one frame is submitted but zero packets have been written
when `finish` returns, so the total number of packets written does not
equal the total number of frames submitted for every run. -/
theorem C8_counterexample :
    (run envAgain enc800
      [Cmd.encode frame800, Cmd.finishCmd]).sent.length = 1 ∧
    packetCount (run envAgain enc800
      [Cmd.encode frame800, Cmd.finishCmd]).trace = 0 := by
  decide

/-- Claim C9: the frame produced by the scaling and reformatting step
carries exactly the presentation timestamp of the input frame. -/
theorem C9_scale_preserves_pts (env : Env) (s : Encoder) (f fr : RawFrame)
    (h : scale env s f = Except.ok fr) : fr.pts = f.pts :=
  (scale_ok h).2

/-- Claim C9 witness instance: scaling the concrete 800 by 600 frame
through the benign oracle preserves its PTS. -/
theorem C9_scale_preserves_pts_witness :
    ({ width := 800, height := 600, format := Pixel.YUV420P, pts := 0,
       kind_I := false } : RawFrame).pts = frame800.pts :=
  C9_scale_preserves_pts envScenario enc800 frame800
    { width := 800, height := 600, format := Pixel.YUV420P, pts := 0,
      kind_I := false } rfl

/-- Claim C10: `finish` is not atomic on error: it sets
`have_written_trailer` before flushing, so when the flush or the trailer
write fails the error is returned but the trailer is never written
(trailer count unchanged), every subsequent `finish` call is a successful
no-op, and the implicit `finish` at drop is a no-op as well. -/
theorem C10_finish_not_atomic (env : Env) (s : Encoder) (e : Err)
    (hh : s.have_written_header = true)
    (ht : s.have_written_trailer = false)
    (herr : (finish env s).2 = Except.error e) :
    (finish env s).1.have_written_trailer = true ∧
    trailerCount (finish env s).1.trace = trailerCount s.trace ∧
    finish env ((finish env s).1) = ((finish env s).1, Except.ok ()) ∧
    dropEncoder env ((finish env s).1) = (finish env s).1 := by
  obtain ⟨h1, h2⟩ := finish_error_spec hh ht herr
  have h3 : finish env ((finish env s).1) =
      ((finish env s).1, Except.ok ()) := finish_noop (Or.inr h1)
  refine ⟨h1, h2, h3, ?_⟩
  unfold dropEncoder
  rw [h3]

/-- Claim C10 witness instance: a `finish` whose end-of-stream signal
fails leaves the trailer flag set, writes no trailer, and makes all
subsequent finishes (drop included) no-ops. -/
theorem C10_finish_not_atomic_witness :
    (finish envEofFail encStarted).1.have_written_trailer = true ∧
    trailerCount (finish envEofFail encStarted).1.trace =
      trailerCount encStarted.trace ∧
    finish envEofFail ((finish envEofFail encStarted).1) =
      ((finish envEofFail encStarted).1, Except.ok ()) ∧
    dropEncoder envEofFail ((finish envEofFail encStarted).1) =
      (finish envEofFail encStarted).1 :=
  C10_finish_not_atomic envEofFail encStarted (Err.BackendError 7) rfl rfl
    rfl

end VideoRs
